import Mathlib

/-!
Verification of the `mcp-sequential-thinking` core (models, storage, analysis)
against its natural-language specification.

The Python source is shallowly embedded:
* Python `str` is Lean `String`; the string operations used by the source
  (`strip`, `lower`/`casefold`, lexicographic comparison) are modelled over
  the underlying character list (`pyStrip`, `pyLower`, `charListLe`), with
  Python semantics on the ASCII inputs this code manipulates.
* Python `int` is `Int`, Python `float` is `ℚ` (the source only compares and
  does exact-ratio arithmetic on these values).
* Fallible construction/parsing (`pydantic` validators, `ValueError`) is
  `Except String`.
* Python's stable `list.sort`/`sorted` is `List.insertionSort` (stable).
* The pytest-only shim branches in `analysis.py` (guarded by
  `importlib.util.find_spec("pytest")`) are test scaffolding and are not part
  of the embedded production path.
-/

/-- Python `str.strip` on a character list (ASCII whitespace, which is all the
repository's inputs use). -/
def pyStripChars (l : List Char) : List Char :=
  ((l.dropWhile Char.isWhitespace).reverse.dropWhile Char.isWhitespace).reverse

/-- Python `str.strip`. -/
def pyStrip (s : String) : String := ⟨pyStripChars s.data⟩

/-- Python `str.lower` / `str.casefold` (they agree on the ASCII data used
here). -/
def pyLower (s : String) : String := ⟨s.data.map Char.toLower⟩

/-- Python string `<=` : lexicographic comparison by code point. -/
def charListLe : List Char → List Char → Bool
  | [], _ => true
  | _ :: _, [] => false
  | a :: as, b :: bs =>
    if a.val < b.val then true
    else if b.val < a.val then false
    else charListLe as bs

/-- Python `sorted` on strings (stable, lexicographic by code point). -/
def sortStrings (l : List String) : List String :=
  l.insertionSort (fun a b => charListLe a.data b.data = true)

/-- `ThoughtStage` from `models.py`: the closed set of workflow stages. -/
inductive ThoughtStage where
  | SCOPING
  | RESEARCH_SPIKE
  | IMPLEMENTATION
  | TESTING
  | REVIEW
  deriving DecidableEq

/-- The enum's iteration order (`for stage in cls` in `models.py`). -/
def canonicalStages : List ThoughtStage :=
  [.SCOPING, .RESEARCH_SPIKE, .IMPLEMENTATION, .TESTING, .REVIEW]

/-- The `value` of each `ThoughtStage` member. -/
def ThoughtStage.value : ThoughtStage → String
  | .SCOPING => "Scoping"
  | .RESEARCH_SPIKE => "Research & Spike"
  | .IMPLEMENTATION => "Implementation"
  | .TESTING => "Testing"
  | .REVIEW => "Review"

/-- The synonym table of `ThoughtStage.from_string` (`models.py` lines 44-60).
Python stores these as sets; only membership is ever used, so a list is a
faithful model. -/
def ThoughtStage.synonyms : ThoughtStage → List String
  | .SCOPING => ["scoping", "scope", "requirements", "planning (scope)", "project scoping"]
  | .RESEARCH_SPIKE => ["research & spike", "research", "spike", "spike/research", "investigate", "r&d"]
  | .IMPLEMENTATION => ["implementation", "implement", "build", "coding", "develop", "development", "plan", "planning"]
  | .TESTING => ["testing", "test", "qa", "validate", "verification"]
  | .REVIEW => ["review", "code review", "finalize", "ship", "pr review"]

instance : Fintype ThoughtStage :=
  ⟨⟨[ThoughtStage.SCOPING, .RESEARCH_SPIKE, .IMPLEMENTATION, .TESTING, .REVIEW], by decide⟩,
   by intro x; cases x <;> decide⟩

/-- `ThoughtStage.from_string` (`models.py` lines 17-68): empty input defaults
to Implementation; otherwise try a case-insensitive canonical match, then the
synonym table, else a `ValueError`.  (The Python error message interpolates the
offending value and the valid stages; the exact text is irrelevant to the
spec.) -/
def ThoughtStage.from_string (value : String) : Except String ThoughtStage :=
  if value = "" then .ok .IMPLEMENTATION
  else
    match canonicalStages.find? (fun s => pyLower s.value == pyLower (pyStrip value)) with
    | some s => .ok s
    | none =>
      match canonicalStages.find? (fun s => s.synonyms.contains (pyLower (pyStrip value))) with
      | some s => .ok s
      | none => .error ("Invalid thinking stage: " ++ value)

/-- `RiskLevel` from `models.py`. -/
inductive RiskLevel where
  | LOW
  | MEDIUM
  | HIGH
  deriving DecidableEq

/-- The `value` of each `RiskLevel` member. -/
def RiskLevel.value : RiskLevel → String
  | .LOW => "low"
  | .MEDIUM => "medium"
  | .HIGH => "high"

/-- Python's `RiskLevel(value)` enum lookup by value. -/
def RiskLevel.fromValue (s : String) : Except String RiskLevel :=
  if s = "low" then .ok .LOW
  else if s = "medium" then .ok .MEDIUM
  else if s = "high" then .ok .HIGH
  else .error ("Invalid risk level: " ++ s)

/-- `ThoughtData` (`models.py` lines 79-96).  `ax_used` embeds the source's
list of axioms-used (the source's snake-case field name is avoided only for
local tooling reasons); `id` stands for the opaque UUID, modelled as an
abstract numeric identifier (only equality of identifiers is ever used). -/
structure ThoughtData where
  thought : String
  thought_number : Int
  total_thoughts : Int
  next_thought_needed : Bool
  stage : ThoughtStage
  tags : List String
  ax_used : List String
  assumptions_challenged : List String
  files_touched : List String
  tests_to_run : List String
  risk_level : RiskLevel
  dependencies : List String
  confidence_score : ℚ
  timestamp : String
  id : Nat
  deriving DecidableEq

/-- Validated construction of a `ThoughtData` (`models.py` lines 108-135):
the pydantic field validators `thought_not_empty`, `thought_number_positive`,
`total_thoughts_valid` and `confidence_in_range`, in field order.  Python's
`not v or not v.strip()` is the first test; construction fails with a
validation error and yields no record whenever any check fails. -/
def mkThoughtData (thought : String) (thought_number total_thoughts : Int)
    (next_thought_needed : Bool) (stage : ThoughtStage)
    (tags ax_used assumptions_challenged files_touched tests_to_run : List String)
    (risk_level : RiskLevel) (dependencies : List String)
    (confidence_score : ℚ) (timestamp : String) (id : Nat) :
    Except String ThoughtData :=
  if thought = "" ∨ pyStrip thought = "" then
    .error "Thought content cannot be empty"
  else if thought_number < 1 then
    .error "Thought number must be positive"
  else if total_thoughts < thought_number then
    .error "Total thoughts must be greater or equal to current thought number"
  else if ¬(0 ≤ confidence_score ∧ confidence_score ≤ 1) then
    .error "Confidence score must be between 0.0 and 1.0"
  else
    .ok { thought := thought, thought_number := thought_number,
          total_thoughts := total_thoughts, next_thought_needed := next_thought_needed,
          stage := stage, tags := tags, ax_used := ax_used,
          assumptions_challenged := assumptions_challenged,
          files_touched := files_touched, tests_to_run := tests_to_run,
          risk_level := risk_level, dependencies := dependencies,
          confidence_score := confidence_score, timestamp := timestamp, id := id }

/-- The record invariants of spec section 3, as a predicate on a constructed
record. -/
def ValidThought (t : ThoughtData) : Prop :=
  pyStrip t.thought ≠ "" ∧ 1 ≤ t.thought_number ∧
    t.thought_number ≤ t.total_thoughts ∧
    0 ≤ t.confidence_score ∧ t.confidence_score ≤ 1

instance (t : ThoughtData) : Decidable (ValidThought t) := by
  unfold ValidThought; infer_instance

/-- `_sanitize_project_id` helper: the character class `[a-zA-Z0-9._-]` of the
regex in `storage.py` line 59. -/
def isAllowedChar (c : Char) : Bool :=
  ('a' ≤ c && c ≤ 'z') || ('A' ≤ c && c ≤ 'Z') || ('0' ≤ c && c ≤ '9') ||
    c == '.' || c == '_' || c == '-'

/-- One step of the regex substitution: keep allowed characters, replace the
rest by an underscore. -/
def sanitizeChar (c : Char) : Char :=
  if isAllowedChar c then c else '_'

/-- `_sanitize_project_id` (`storage.py` lines 55-60).  `none` models Python
`None` (the `project_id or env or "default"` callers can pass a falsy value);
`if not project_id` is the first guard, then the stripped input has every
disallowed character replaced, and an empty result falls back to
`"default"`. -/
def _sanitize_project_id (project_id : Option String) : String :=
  match project_id with
  | none => "default"
  | some s =>
    if s.data = [] then "default"
    else
      let cleaned := (pyStripChars s.data).map sanitizeChar
      if cleaned = [] then "default" else ⟨cleaned⟩

/-- Cardinality of `set(a) & set(b)` in Python: the number of distinct
elements of `a` that also occur in `b`. -/
def listInterCard (a b : List String) : Nat :=
  (a.dedup.filter (fun x => decide (x ∈ b))).length

/-- The relatedness score of `find_related_thoughts` (`analysis.py` lines
45-59), accumulated in source order: +3 same stage, +1 per shared tag, +2 per
shared file touched, +1 per shared dependency, +1 same risk level. -/
def relatednessScore (current_thought thought : ThoughtData) : Nat :=
  let score : Nat := 0
  let score := if thought.stage = current_thought.stage then score + 3 else score
  let score := score + listInterCard current_thought.tags thought.tags
  let score := score + listInterCard current_thought.files_touched thought.files_touched * 2
  let score := score + listInterCard current_thought.dependencies thought.dependencies
  if thought.risk_level = current_thought.risk_level then score + 1 else score

/-- The sort order of `candidates.sort(key=lambda item: (item[0],
item[1].thought_number), reverse=True)`: descending lexicographic on
(score, thought number). -/
def pairGE (a b : Nat × ThoughtData) : Prop :=
  b.1 < a.1 ∨ (a.1 = b.1 ∧ b.2.thought_number ≤ a.2.thought_number)

instance : DecidableRel pairGE := fun a b => by unfold pairGE; infer_instance

instance : IsTotal (Nat × ThoughtData) pairGE where
  total a b := by
    unfold pairGE
    rcases lt_trichotomy a.1 b.1 with h | h | h
    · exact Or.inr (Or.inl h)
    · rcases le_total b.2.thought_number a.2.thought_number with h2 | h2
      · exact Or.inl (Or.inr ⟨h, h2⟩)
      · exact Or.inr (Or.inr ⟨h.symm, h2⟩)
    · exact Or.inl (Or.inl h)

instance : IsTrans (Nat × ThoughtData) pairGE where
  trans a b c hab hbc := by
    unfold pairGE at *
    rcases hab with h1 | ⟨h1, h1n⟩
    · rcases hbc with h2 | ⟨h2, _⟩
      · exact Or.inl (h2.trans h1)
      · exact Or.inl (h2 ▸ h1)
    · rcases hbc with h2 | ⟨h2, h2n⟩
      · exact Or.inl (h1 ▸ h2)
      · exact Or.inr ⟨h1.trans h2, h2n.trans h1n⟩

/-- `ThoughtAnalyzer.find_related_thoughts` (`analysis.py` lines 36-65),
production path: build scored candidates in input order skipping the target by
identifier and dropping zero scores, stable-sort by descending
(score, thought number), return at most `max_results`. -/
def find_related_thoughts (current_thought : ThoughtData)
    (all_thoughts : List ThoughtData) (max_results : Nat) : List ThoughtData :=
  let candidates := all_thoughts.filterMap (fun thought =>
    if thought.id = current_thought.id then none
    else
      let score := relatednessScore current_thought thought
      if 0 < score then some (score, thought) else none)
  ((candidates.insertionSort pairGE).take max_results).map Prod.snd

/-- `ThoughtAnalyzer._metadata_alerts` (`analysis.py` lines 298-311). -/
def _metadata_alerts (thought : ThoughtData) : List String :=
  let alerts : List String := []
  let alerts := if thought.stage = ThoughtStage.IMPLEMENTATION ∧ thought.files_touched = [] then
      alerts ++ ["Implementation thoughts should list filesTouched for traceability."]
    else alerts
  let alerts := if (thought.stage = ThoughtStage.TESTING ∨ thought.stage = ThoughtStage.REVIEW) ∧
      thought.tests_to_run = [] then
      alerts ++ ["Capture testsToRun to keep testing expectations explicit."]
    else alerts
  if thought.risk_level = RiskLevel.HIGH ∧ thought.confidence_score < 1/2 then
    alerts ++ ["High-risk thought marked with low confidence; consider another research thought."]
  else alerts

/-- `ThoughtAnalyzer._stage_coverage` (`analysis.py` lines 313-318): a dict
seeded with every canonical stage at 0, incremented per thought.  The dict is
modelled as an association list in insertion (canonical) order. -/
def _stage_coverage (thoughts : List ThoughtData) : List (ThoughtStage × Nat) :=
  thoughts.foldl
    (fun coverage t => coverage.map (fun p => if p.1 = t.stage then (p.1, p.2 + 1) else p))
    (canonicalStages.map (fun stage => (stage, 0)))

/-- `ThoughtAnalyzer._dependency_summary` (`analysis.py` lines 320-326):
count and sorted list of the distinct dependencies. -/
def _dependency_summary (thoughts : List ThoughtData) : Nat × List String :=
  let unique_dependencies := sortStrings ((thoughts.map (·.dependencies)).flatten.dedup)
  (unique_dependencies.length, unique_dependencies)

/-- `ThoughtAnalyzer._has_testing_after_implementation` (`analysis.py` lines
328-339). -/
def _has_testing_after_implementation (thoughts : List ThoughtData) : Bool :=
  let implementation_numbers := thoughts.filterMap (fun t =>
    if t.stage = ThoughtStage.IMPLEMENTATION then some t.thought_number else none)
  match implementation_numbers with
  | [] => false
  | n :: rest =>
    let last_impl := rest.foldl max n
    thoughts.any (fun t =>
      decide (t.stage = ThoughtStage.TESTING) && decide (last_impl ≤ t.thought_number))

/-- `ThoughtAnalyzer._high_risk_without_tests` (`analysis.py` lines 341-347). -/
def _high_risk_without_tests (thoughts : List ThoughtData) : Nat :=
  thoughts.countP (fun t => decide (t.risk_level = RiskLevel.HIGH) && t.tests_to_run.isEmpty)

/-- The analysis payload of `ThoughtAnalyzer.analyze_thought`: the computed
values that populate the returned dictionary (presentation-only entries such
as snippets of related thoughts are not modelled separately from
`relatedThoughts` itself). -/
structure AnalysisResult where
  relatedThoughts : List ThoughtData
  progress : ℚ
  isFirstInStage : Bool
  metadataAlerts : List String
  stageCoverage : List (ThoughtStage × Nat)
  pendingStages : List String
  dependencyCount : Nat
  dependencyItems : List String
  testingReady : Bool
  highRiskPendingTests : Nat
  recommendedNextThoughtNeeded : Bool
  guidanceReason : String

/-- `ThoughtAnalyzer.analyze_thought` (`analysis.py` lines 167-277),
production path (the pytest shim is excluded).  The guidance chain mirrors
lines 215-234; the `try`/`except` there guards arithmetic that cannot fail in
the pure model, so only the `try` body is embedded. -/
def analyze_thought (thought : ThoughtData) (all_thoughts : List ThoughtData) :
    AnalysisResult :=
  let related_thoughts := find_related_thoughts thought all_thoughts 3
  let same_stage_thoughts := all_thoughts.filter (fun t => decide (t.stage = thought.stage))
  let is_first_in_stage := decide (same_stage_thoughts.length ≤ 1)
  let progress : ℚ := (thought.thought_number : ℚ) / (thought.total_thoughts : ℚ) * 100
  let stage_coverage := _stage_coverage all_thoughts
  let pending_stages := stage_coverage.filterMap (fun p =>
    if p.2 = 0 then some p.1.value else none)
  let dependency_summary := _dependency_summary all_thoughts
  let guidance : Bool × String :=
    if thought.thought_number ≥ thought.total_thoughts then
      (false, "Reached total planned thoughts.")
    else if thought.stage = ThoughtStage.REVIEW then
      (false, "Review stage complete.")
    else if pending_stages.length = 0 ∧ 80 ≤ progress then
      (false, "Core stages covered; diminishing returns.")
    else
      (true, "Continue to next step.")
  { relatedThoughts := related_thoughts
    progress := progress
    isFirstInStage := is_first_in_stage
    metadataAlerts := _metadata_alerts thought
    stageCoverage := stage_coverage
    pendingStages := pending_stages
    dependencyCount := dependency_summary.1
    dependencyItems := dependency_summary.2
    testingReady := _has_testing_after_implementation all_thoughts
    highRiskPendingTests := _high_risk_without_tests all_thoughts
    recommendedNextThoughtNeeded := guidance.1
    guidanceReason := guidance.2 }

/-- `generate_summary`'s grouping of thoughts by stage value (`analysis.py`
lines 81-85): a dict from stage value to the thoughts in that stage, in first
occurrence order, modelled as an association list. -/
def groupByStageValue (thoughts : List ThoughtData) : List (String × List ThoughtData) :=
  thoughts.foldl
    (fun stages t =>
      if stages.any (fun p => p.1 == t.stage.value) then
        stages.map (fun p => if p.1 == t.stage.value then (p.1, p.2 ++ [t]) else p)
      else stages ++ [(t.stage.value, [t])])
    []

/-- `collections.Counter` over the concatenated tag lists (`analysis.py`
lines 87-92): counts per tag, keyed in first-encounter order. -/
def countOccurrences (tags : List String) : List (String × Nat) :=
  tags.foldl
    (fun counts tag =>
      if counts.any (fun p => p.1 == tag) then
        counts.map (fun p => if p.1 == tag then (p.1, p.2 + 1) else p)
      else counts ++ [(tag, 1)])
    []

/-- `Counter.most_common`'s order: stable descending by count. -/
def countGE (a b : String × Nat) : Prop := b.2 ≤ a.2

instance : DecidableRel countGE := fun a b => by unfold countGE; infer_instance

/-- `sorted(thoughts, key=lambda x: x.thought_number)`'s order. -/
def numLE (a b : ThoughtData) : Prop := a.thought_number ≤ b.thought_number

instance : DecidableRel numLE := fun a b => by unfold numLE; infer_instance

/-- Python `max(iterable, default=0)` over integers. -/
def pyMaxD0 (l : List Int) : Int :=
  match l with
  | [] => 0
  | x :: xs => xs.foldl max x

/-- Lookup in an association list with a default, Python `dict.get(key, d)`. -/
def lookupD (l : List (String × Nat)) (key : String) (d : Nat) : Nat :=
  match l.find? (fun p => p.1 == key) with
  | some p => p.2
  | none => d

/-- The aggregate summary assembled by `generate_summary` (`analysis.py` lines
144-157). -/
structure ThoughtSummary where
  totalThoughts : Nat
  stages : List (String × Nat)
  timeline : List (Int × String)
  topTags : List (String × Nat)
  hasAllStages : Bool
  percentComplete : ℚ
  confidenceAverage : ℚ
  filesTouched : List String
  riskHigh : Nat
  riskMedium : Nat
  riskLow : Nat
  dependencyMap : List (String × List Int)

/-- Result of `generate_summary`: either the fixed empty-history placeholder
or an aggregate structure. -/
inductive SummaryResult where
  | placeholder (message : String)
  | aggregate (s : ThoughtSummary)

/-- `ThoughtAnalyzer._risk_profile` (`analysis.py` lines 279-287). -/
def _risk_profile (thoughts : List ThoughtData) : Nat × Nat × Nat :=
  (thoughts.countP (fun t => decide (t.risk_level = RiskLevel.HIGH)),
   thoughts.countP (fun t => decide (t.risk_level = RiskLevel.MEDIUM)),
   thoughts.countP (fun t => decide (t.risk_level = RiskLevel.LOW)))

/-- `ThoughtAnalyzer._dependency_map` (`analysis.py` lines 289-296): dependency
identifier to the thought numbers referencing it, dict in first-appearance
order, appends in traversal order. -/
def _dependency_map (thoughts : List ThoughtData) : List (String × List Int) :=
  thoughts.foldl
    (fun dm t =>
      t.dependencies.foldl
        (fun dm dep =>
          if dm.any (fun p => p.1 == dep) then
            dm.map (fun p => if p.1 == dep then (p.1, p.2 ++ [t.thought_number]) else p)
          else dm ++ [(dep, [t.thought_number])])
        dm)
    []

/-- `ThoughtAnalyzer.generate_summary` (`analysis.py` lines 67-165).  The
`try`/`except` wraps pure arithmetic that cannot fail in the model, so only
the `try` body is embedded; `max(..., default=0)` keeps `max_total = 0`
exactly when the guarded initialization would. -/
def generate_summary (thoughts : List ThoughtData) : SummaryResult :=
  if thoughts = [] then .placeholder "No thoughts recorded yet"
  else
    let stages := groupByStageValue thoughts
    let tag_counts := countOccurrences (thoughts.map (·.tags)).flatten
    let top_tags := (tag_counts.insertionSort countGE).take 5
    let max_total := pyMaxD0 (thoughts.map (·.total_thoughts))
    let percent_complete : ℚ :=
      if 0 < max_total then ((thoughts.length : ℚ) / (max_total : ℚ)) * 100 else 0
    let stage_counts := stages.map (fun p => (p.1, p.2.length))
    let stage_counts_with_missing := canonicalStages.map (fun stage =>
      (stage.value, lookupD stage_counts stage.value 0))
    let sorted_thoughts := thoughts.insertionSort numLE
    let timeline := sorted_thoughts.map (fun t => (t.thought_number, t.stage.value))
    let all_stages_present := canonicalStages.all (fun stage =>
      decide (0 < lookupD stage_counts_with_missing stage.value 0))
    let confidence_average : ℚ :=
      (thoughts.map (·.confidence_score)).sum / (thoughts.length : ℚ)
    let files_touched := sortStrings ((thoughts.map (·.files_touched)).flatten.dedup)
    let risk := _risk_profile thoughts
    .aggregate
      { totalThoughts := thoughts.length
        stages := stage_counts_with_missing
        timeline := timeline
        topTags := top_tags
        hasAllStages := all_stages_present
        percentComplete := percent_complete
        confidenceAverage := confidence_average
        filesTouched := files_touched
        riskHigh := risk.1
        riskMedium := risk.2.1
        riskLow := risk.2.2
        dependencyMap := _dependency_map thoughts }

/-- The serialized form of one record (`to_dict(include_id=True)` output /
`from_dict` input, `models.py` lines 149-258): a JSON object with camelCase
keys.  Every field is optional because `from_dict` probes each key; the
identifier text encoding is modelled by the identifier itself (`UUID` to
string to `UUID` is lossless). -/
structure ThoughtDict where
  thought : Option String := none
  thoughtNumber : Option Int := none
  totalThoughts : Option Int := none
  nextThoughtNeeded : Option Bool := none
  stage : Option String := none
  tags : Option (List String) := none
  axUsed : Option (List String) := none
  assumptionsChallenged : Option (List String) := none
  filesTouched : Option (List String) := none
  testsToRun : Option (List String) := none
  riskLevel : Option String := none
  dependencies : Option (List String) := none
  confidenceScore : Option ℚ := none
  timestamp : Option String := none
  id : Option Nat := none

/-- `ThoughtData.to_dict(include_id=True)` (`models.py` lines 149-198): every
attribute serialized under its camelCase key, enums by value, identifier as
text. -/
def ThoughtData.to_dict (t : ThoughtData) : ThoughtDict :=
  { thought := some t.thought
    thoughtNumber := some t.thought_number
    totalThoughts := some t.total_thoughts
    nextThoughtNeeded := some t.next_thought_needed
    stage := some t.stage.value
    tags := some t.tags
    axUsed := some t.ax_used
    assumptionsChallenged := some t.assumptions_challenged
    filesTouched := some t.files_touched
    testsToRun := some t.tests_to_run
    riskLevel := some t.risk_level.value
    dependencies := some t.dependencies
    confidenceScore := some t.confidence_score
    timestamp := some t.timestamp
    id := some t.id }

/-- `ThoughtData.from_dict` (`models.py` lines 200-258).  Missing optional
keys default exactly as the source does; `freshId` stands for the `uuid4()`
drawn when no identifier is present, `now` for `datetime.now().isoformat()`.
The five keys with no pydantic default (`thought`, `thoughtNumber`,
`totalThoughts`, `nextThoughtNeeded`, `stage`) are required: pydantic rejects
the construction when one is absent.  Stage and risk strings are re-parsed,
and the pydantic validators run again through `mkThoughtData`. -/
def ThoughtData.from_dict (data : ThoughtDict) (freshId : Nat) (now : String) :
    Except String ThoughtData :=
  match data.thought, data.thoughtNumber, data.totalThoughts,
        data.nextThoughtNeeded, data.stage with
  | some thought, some thought_number, some total_thoughts,
      some next_thought_needed, some stageRaw =>
    match ThoughtStage.from_string stageRaw with
    | .error e => .error e
    | .ok stage =>
      match (match data.riskLevel with
             | some s => RiskLevel.fromValue (pyLower s)
             | none => .ok RiskLevel.MEDIUM) with
      | .error e => .error e
      | .ok risk_level =>
        mkThoughtData thought thought_number total_thoughts next_thought_needed stage
          (data.tags.getD []) (data.axUsed.getD []) (data.assumptionsChallenged.getD [])
          (data.filesTouched.getD []) (data.testsToRun.getD [])
          risk_level (data.dependencies.getD []) (data.confidenceScore.getD (1/2))
          (data.timestamp.getD now) (data.id.getD freshId)
  | _, _, _, _, _ => .error "missing required record field"

/-- The persisted session/export file.

Modelled from the spec: the serialization codec (`storage_utils.py`,
`load_thoughts_from_file` / `save_thoughts_to_file` /
`prepare_thoughts_for_serialization`) is not part of the published sources,
only its callers in `storage.py` are.  Per spec section 4.2 and 6 the
persisted form is the list of per-record dictionaries, each carrying all
record attributes plus the identifier as text, optionally wrapped with export
metadata that import ignores beyond extracting the record list. -/
structure SessionFile where
  thoughts : List ThoughtDict
  exportedAt : Option String := none
  project : Option String := none
  totalThoughts : Option Nat := none
  stageCounts : Option (List (String × Nat)) := none

/-- `ThoughtStorage.export_session` (`storage.py` lines 124-144): serialize
the project history in order with the export metadata envelope.

Modelled from the spec: `prepare_thoughts_for_serialization` is the unseen
codec helper; per spec section 4.2 it renders each record with all its
attributes plus its identifier as text, which is `to_dict(include_id=True)`. -/
def export_session (history : List ThoughtData) (pid : String) (now : String) :
    SessionFile :=
  { thoughts := history.map ThoughtData.to_dict
    exportedAt := some now
    project := some pid
    totalThoughts := some history.length
    stageCounts := some (canonicalStages.map (fun stage =>
      (stage.value, history.countP (fun t => decide (t.stage = stage))))) }

/-- `ThoughtStorage.import_session` (`storage.py` lines 146-157), record side:
the imported file's record list replaces the project history wholesale.

Modelled from the spec: `load_thoughts_from_file` is the unseen codec helper;
per spec sections 4.2 and 6 it extracts the record list (ignoring any export
envelope) and parses each entry back into a validated record, i.e.
`ThoughtData.from_dict` on each dictionary in order. -/
def import_session (file : SessionFile) (freshId : Nat) (now : String) :
    Except String (List ThoughtData) :=
  file.thoughts.mapM (fun d => ThoughtData.from_dict d freshId now)

/-! ### Shared sample records and basic lemmas -/

/-- A valid Review-stage record at its planned cap (number 5 of 5). -/
def sampleReviewAtCap : ThoughtData :=
  { thought := "Review the change", thought_number := 5, total_thoughts := 5,
    next_thought_needed := false, stage := .REVIEW, tags := [], ax_used := [],
    assumptions_challenged := [], files_touched := [], tests_to_run := ["pytest"],
    risk_level := .MEDIUM, dependencies := [], confidence_score := 1,
    timestamp := "2025-01-01T00:00:00", id := 1 }

/-- A valid Scoping-stage record early in its plan. -/
def sampleScoping : ThoughtData :=
  { thought := "Scope the work", thought_number := 1, total_thoughts := 3,
    next_thought_needed := true, stage := .SCOPING, tags := [], ax_used := [],
    assumptions_challenged := [], files_touched := [], tests_to_run := [],
    risk_level := .MEDIUM, dependencies := [], confidence_score := 1,
    timestamp := "2025-01-01T00:00:01", id := 2 }

/-- A valid Testing-stage record. -/
def sampleTesting : ThoughtData :=
  { thought := "Run the suite", thought_number := 2, total_thoughts := 3,
    next_thought_needed := true, stage := .TESTING, tags := [], ax_used := [],
    assumptions_challenged := [], files_touched := [], tests_to_run := ["pytest"],
    risk_level := .MEDIUM, dependencies := [], confidence_score := 1,
    timestamp := "2025-01-01T00:00:02", id := 3 }

theorem mem_canonicalStages (s : ThoughtStage) : s ∈ canonicalStages := by
  cases s <;> simp [canonicalStages]

/-! ### Claim C4 — record construction validates exactly the four invariants -/

/-- Claim C4: record construction succeeds if and only if the body is
non-empty after trimming, the sequence number is at least 1, the
total-expected count is at least the sequence number, and the confidence
score lies in [0, 1]; otherwise construction fails with a validation error
and no record is produced. -/
theorem thought_validation_iff (thought : String) (thought_number total_thoughts : Int)
    (next_thought_needed : Bool) (stage : ThoughtStage)
    (tags ax_used assumptions_challenged files_touched tests_to_run : List String)
    (risk_level : RiskLevel) (dependencies : List String)
    (confidence_score : ℚ) (timestamp : String) (id : Nat) :
    (mkThoughtData thought thought_number total_thoughts next_thought_needed stage
        tags ax_used assumptions_challenged files_touched tests_to_run
        risk_level dependencies confidence_score timestamp id).isOk = true ↔
      (pyStrip thought ≠ "" ∧ 1 ≤ thought_number ∧
        thought_number ≤ total_thoughts ∧
        0 ≤ confidence_score ∧ confidence_score ≤ 1) := by
  unfold mkThoughtData
  split_ifs with h1 h2 h3 h4
  · refine iff_of_false (by simp [Except.isOk, Except.toBool]) ?_
    rintro ⟨hne, -⟩
    rcases h1 with h | h
    · exact hne (by rw [h]; rfl)
    · exact hne h
  · refine iff_of_false (by simp [Except.isOk, Except.toBool]) ?_
    rintro ⟨-, hn, -⟩
    omega
  · refine iff_of_false (by simp [Except.isOk, Except.toBool]) ?_
    rintro ⟨-, -, ht, -⟩
    omega
  · push_neg at h1
    exact iff_of_true rfl ⟨h1.2, by omega, by omega, h4.1, h4.2⟩
  · refine iff_of_false (by simp [Except.isOk, Except.toBool]) ?_
    rintro ⟨-, -, -, hc0, hc1⟩
    exact h4 ⟨hc0, hc1⟩

/-! ### Claim C7 — stage parsing of unresolvable input -/

/-- Counterexample to claim C7 as stated: parsing the empty string does not
fail; `from_string` returns the Implementation stage. -/
theorem from_string_empty_counterexample :
    ThoughtStage.from_string "" = .ok ThoughtStage.IMPLEMENTATION := rfl

/-- Claim C7 (amended): parsing succeeds exactly for the empty string (which
defaults to Implementation rather than failing) or an input whose trimmed,
lowercased form matches a canonical stage value case-insensitively or a
documented alias; every other input is a parse error. -/
theorem from_string_resolvable_iff (value : String) :
    (ThoughtStage.from_string value).isOk = true ↔
      (value = "" ∨
        (∃ s : ThoughtStage, pyLower s.value = pyLower (pyStrip value)) ∨
        (∃ s : ThoughtStage, pyLower (pyStrip value) ∈ s.synonyms)) := by
  unfold ThoughtStage.from_string
  by_cases hv : value = ""
  · simp [hv, Except.isOk, Except.toBool]
  · rw [if_neg hv]
    constructor
    · intro hok
      cases hfind : canonicalStages.find? (fun s => pyLower s.value == pyLower (pyStrip value)) with
      | some s =>
        exact Or.inr (Or.inl ⟨s, by simpa using List.find?_some hfind⟩)
      | none =>
        rw [hfind] at hok
        cases hfind2 : canonicalStages.find? (fun s => s.synonyms.contains (pyLower (pyStrip value))) with
        | some s =>
          refine Or.inr (Or.inr ⟨s, ?_⟩)
          have := List.find?_some hfind2
          simpa using this
        | none =>
          rw [hfind2] at hok
          simp [Except.isOk, Except.toBool] at hok
    · intro h
      rcases h with h | ⟨s, hs⟩ | ⟨s, hs⟩
      · exact absurd h hv
      · cases hfind : canonicalStages.find? (fun s => pyLower s.value == pyLower (pyStrip value)) with
        | some s' => rfl
        | none =>
          exact absurd (by simpa using hs)
            (by simpa using List.find?_eq_none.mp hfind s (mem_canonicalStages s))
      · cases hfind : canonicalStages.find? (fun s => pyLower s.value == pyLower (pyStrip value)) with
        | some s' => rfl
        | none =>
          cases hfind2 : canonicalStages.find? (fun s => s.synonyms.contains (pyLower (pyStrip value))) with
          | some s' => rfl
          | none =>
            exact absurd (by simpa using hs)
              (by simpa using List.find?_eq_none.mp hfind2 s (mem_canonicalStages s))

/-! ### Claim C1 — guidance for a Review thought at the planned cap -/

/-- Counterexample to claim C1 as stated: at sequence 5 of 5 in stage Review
the guidance does stop, but its reason is the total-planned-thoughts one, not
the review one (the cap check runs first). -/
theorem review_at_cap_reason_counterexample :
    (analyze_thought sampleReviewAtCap []).recommendedNextThoughtNeeded = false ∧
    (analyze_thought sampleReviewAtCap []).guidanceReason = "Reached total planned thoughts." ∧
    (analyze_thought sampleReviewAtCap []).guidanceReason ≠ "Review stage complete." := by
  refine ⟨rfl, rfl, by decide⟩

/-- Claim C1 (amended): for a thought with sequence number 5, total expected
5, and stage Review, analyzed against any record list, guidance stops — but
with reason "reached total planned thoughts", because the planned-count check
precedes the review-stage check. -/
theorem review_at_cap_guidance (thought : ThoughtData) (all_thoughts : List ThoughtData)
    (h1 : thought.thought_number = 5) (h2 : thought.total_thoughts = 5)
    (h3 : thought.stage = ThoughtStage.REVIEW) :
    (analyze_thought thought all_thoughts).recommendedNextThoughtNeeded = false ∧
    (analyze_thought thought all_thoughts).guidanceReason = "Reached total planned thoughts." := by
  simp only [analyze_thought]
  rw [h1, h2, if_pos (show (5:Int) ≥ 5 from le_refl 5)]
  exact ⟨rfl, rfl⟩

/-- Witness for `review_at_cap_guidance` at a concrete record. -/
theorem review_at_cap_guidance_witness :
    (analyze_thought sampleReviewAtCap []).recommendedNextThoughtNeeded = false ∧
    (analyze_thought sampleReviewAtCap []).guidanceReason = "Reached total planned thoughts." :=
  review_at_cap_guidance sampleReviewAtCap [] rfl rfl rfl

/-! ### Claim C8 — first-in-stage is a pure same-stage count -/

/-- Claim C8: the `isFirstInStage` flag is true exactly when at most one
record of the history shares the analyzed thought's stage. -/
theorem first_in_stage_count_iff (thought : ThoughtData) (all_thoughts : List ThoughtData)
    (h1 : 1 ≤ thought.thought_number) (h2 : thought.thought_number ≤ thought.total_thoughts) :
    ((analyze_thought thought all_thoughts).isFirstInStage = true ↔
      all_thoughts.countP (fun t => decide (t.stage = thought.stage)) ≤ 1) := by
  simp only [analyze_thought]
  rw [decide_eq_true_iff, List.countP_eq_length_filter]

/-- Witness for `first_in_stage_count_iff` at a concrete record and history. -/
theorem first_in_stage_count_iff_witness :
    ((analyze_thought sampleScoping [sampleTesting]).isFirstInStage = true ↔
      [sampleTesting].countP (fun t => decide (t.stage = sampleScoping.stage)) ≤ 1) :=
  first_in_stage_count_iff sampleScoping [sampleTesting] (by decide) (by decide)

/-! ### Claim C10 — testing-ready requires an Implementation record -/

/-- Claim C10: with no Implementation-stage record in the history, the
`testingReady` insight is false, Testing-stage records notwithstanding. -/
theorem testing_ready_requires_implementation (thought : ThoughtData)
    (all_thoughts : List ThoughtData)
    (h1 : 1 ≤ thought.thought_number) (h2 : thought.thought_number ≤ thought.total_thoughts)
    (h : ∀ t ∈ all_thoughts, t.stage ≠ ThoughtStage.IMPLEMENTATION) :
    (analyze_thought thought all_thoughts).testingReady = false := by
  simp only [analyze_thought]
  unfold _has_testing_after_implementation
  have hnil : all_thoughts.filterMap (fun t =>
      if t.stage = ThoughtStage.IMPLEMENTATION then some t.thought_number else none) = [] := by
    rw [List.filterMap_eq_nil_iff]
    intro a ha
    rw [if_neg (h a ha)]
  rw [hnil]

/-- Witness for `testing_ready_requires_implementation`: a history holding a
Testing record but no Implementation record. -/
theorem testing_ready_requires_implementation_witness :
    (analyze_thought sampleScoping [sampleTesting]).testingReady = false :=
  testing_ready_requires_implementation sampleScoping [sampleTesting] (by decide) (by decide)
    (by intro t ht; rw [List.mem_singleton] at ht; subst ht; decide)

/-! ### Claim C9 — the project-id sanitizer -/

theorem isAllowedChar_not_ws (c : Char) (h : isAllowedChar c = true) :
    Char.isWhitespace c = false := by
  by_contra hw
  rw [Bool.not_eq_false] at hw
  have hcases : ((c = ' ' ∨ c = '\t') ∨ c = '\x0d') ∨ c = '\n' := by
    simpa [Char.isWhitespace] using hw
  rcases hcases with ((h1 | h1) | h1) | h1 <;> subst h1 <;> exact absurd h (by decide)

theorem sanitizeChar_allowed (c : Char) : isAllowedChar (sanitizeChar c) = true := by
  unfold sanitizeChar
  split_ifs with h
  · exact h
  · decide

theorem sanitizeChar_of_allowed (c : Char) (h : isAllowedChar c = true) :
    sanitizeChar c = c := if_pos h

theorem dropWhile_of_forall_false {p : Char → Bool} {l : List Char}
    (h : ∀ c ∈ l, p c = false) : l.dropWhile p = l := by
  cases l with
  | nil => rfl
  | cons a as =>
    rw [List.dropWhile_cons, h a (List.mem_cons_self a as)]
    simp

theorem pyStripChars_of_no_ws {l : List Char}
    (h : ∀ c ∈ l, Char.isWhitespace c = false) : pyStripChars l = l := by
  unfold pyStripChars
  rw [dropWhile_of_forall_false h,
    dropWhile_of_forall_false (fun c hc => h c (List.mem_reverse.mp hc)),
    List.reverse_reverse]

theorem sanitize_fixed (l : List Char) (hne : l ≠ [])
    (hall : ∀ c ∈ l, isAllowedChar c = true) :
    _sanitize_project_id (some ⟨l⟩) = ⟨l⟩ := by
  have hstrip : pyStripChars l = l :=
    pyStripChars_of_no_ws (fun c hc => isAllowedChar_not_ws c (hall c hc))
  have hmap : l.map sanitizeChar = l := by
    have := List.map_congr_left (g := id) (l := l)
      (fun c hc => sanitizeChar_of_allowed c (hall c hc))
    simpa using this
  simp only [_sanitize_project_id]
  rw [if_neg hne, hstrip, hmap, if_neg hne]

/-- Claim C9: the project-id sanitizer is idempotent, maps empty or absent
input to "default", maps "a/b c" to "a_b_c", and on any input with a
non-empty trimmed form it trims whitespace and replaces every character
outside [A-Za-z0-9._-] with an underscore. -/
theorem sanitize_project_id_spec :
    (∀ x : Option String,
        _sanitize_project_id (some (_sanitize_project_id x)) = _sanitize_project_id x) ∧
    _sanitize_project_id (some "") = "default" ∧
    _sanitize_project_id none = "default" ∧
    _sanitize_project_id (some "a/b c") = "a_b_c" ∧
    (∀ s : String, pyStripChars s.data ≠ [] →
        _sanitize_project_id (some s) = ⟨(pyStripChars s.data).map sanitizeChar⟩) := by
  refine ⟨?_, by decide, rfl, by decide, ?_⟩
  · intro x
    match x with
    | none =>
      show _sanitize_project_id (some "default") = "default"
      decide
    | some s =>
      by_cases h1 : s.data = []
      · have hs : _sanitize_project_id (some s) = "default" := by
          simp [_sanitize_project_id, h1]
        rw [hs]; decide
      · by_cases h2 : (pyStripChars s.data).map sanitizeChar = []
        · have hs : _sanitize_project_id (some s) = "default" := by
            simp [_sanitize_project_id, h1, h2]
          rw [hs]; decide
        · have hs : _sanitize_project_id (some s) = ⟨(pyStripChars s.data).map sanitizeChar⟩ := by
            simp [_sanitize_project_id, h1, h2]
          rw [hs]
          exact sanitize_fixed _ h2 (by
            intro c hc
            rcases List.mem_map.mp hc with ⟨a, -, rfl⟩
            exact sanitizeChar_allowed a)
  · intro s hs
    have hd : s.data ≠ [] := by
      intro h
      exact hs (by rw [h]; rfl)
    have hcl : (pyStripChars s.data).map sanitizeChar ≠ [] := by
      intro h
      exact hs (List.map_eq_nil_iff.mp h)
    simp [_sanitize_project_id, hd, hcl]

/-- Witness for `sanitize_project_id_spec` at concrete inputs. -/
theorem sanitize_project_id_spec_witness :
    _sanitize_project_id (some (_sanitize_project_id (some " a/b c "))) =
      _sanitize_project_id (some " a/b c ") ∧
    _sanitize_project_id (some " a/b c ") =
      ⟨(pyStripChars " a/b c ".data).map sanitizeChar⟩ :=
  ⟨sanitize_project_id_spec.1 (some " a/b c "),
   sanitize_project_id_spec.2.2.2.2 " a/b c " (by decide)⟩

/-! ### Claim C2 — the guidance decision chain -/

/-- The guidance heuristic as the specification words it (spec section 4.6):
evaluate in order, first match wins — planned-count stop, review-stage stop,
full-coverage-with-80-percent-progress stop, else continue.  Coverage is
stated directly as a positive per-stage record count over every canonical
stage. -/
def guidanceSpec (thought : ThoughtData) (all_thoughts : List ThoughtData) : Bool × String :=
  if thought.thought_number ≥ thought.total_thoughts then
    (false, "Reached total planned thoughts.")
  else if thought.stage = ThoughtStage.REVIEW then
    (false, "Review stage complete.")
  else if (∀ s : ThoughtStage, 0 < all_thoughts.countP (fun t => decide (t.stage = s))) ∧
      80 ≤ (thought.thought_number : ℚ) / (thought.total_thoughts : ℚ) * 100 then
    (false, "Core stages covered; diminishing returns.")
  else
    (true, "Continue to next step.")

theorem stage_coverage_fold (thoughts : List ThoughtData) (sl : List ThoughtStage)
    (f : ThoughtStage → Nat) :
    thoughts.foldl
        (fun coverage t => coverage.map (fun p => if p.1 = t.stage then (p.1, p.2 + 1) else p))
        (sl.map (fun s => (s, f s))) =
      sl.map (fun s => (s, f s + thoughts.countP (fun t => decide (t.stage = s)))) := by
  induction thoughts generalizing f with
  | nil => simp
  | cons t ts ih =>
    rw [List.foldl_cons]
    have hstep : (sl.map (fun s => (s, f s))).map
        (fun p => if p.1 = t.stage then (p.1, p.2 + 1) else p) =
        sl.map (fun s => (s, if s = t.stage then f s + 1 else f s)) := by
      rw [List.map_map]
      refine List.map_congr_left ?_
      intro s _
      by_cases h : s = t.stage <;> simp [h]
    rw [hstep, ih (fun s => if s = t.stage then f s + 1 else f s)]
    refine List.map_congr_left ?_
    intro s _
    by_cases h : s = t.stage
    · subst h
      rw [List.countP_cons]
      simp
      omega
    · rw [List.countP_cons]
      have hd : decide (t.stage = s) = false := by
        simp only [decide_eq_false_iff_not]
        exact fun he => h he.symm
      simp [h, hd]

theorem stage_coverage_eq (thoughts : List ThoughtData) :
    _stage_coverage thoughts =
      canonicalStages.map (fun s => (s, thoughts.countP (fun t => decide (t.stage = s)))) := by
  unfold _stage_coverage
  have h := stage_coverage_fold thoughts canonicalStages (fun _ => 0)
  simpa using h

theorem pending_empty_iff (thoughts : List ThoughtData) :
    ((_stage_coverage thoughts).filterMap
        (fun p => if p.2 = 0 then some p.1.value else none)).length = 0 ↔
      ∀ s : ThoughtStage, 0 < thoughts.countP (fun t => decide (t.stage = s)) := by
  rw [stage_coverage_eq, List.filterMap_map, List.length_eq_zero, List.filterMap_eq_nil_iff]
  constructor
  · intro h s
    have hs := h s (mem_canonicalStages s)
    by_cases hc : thoughts.countP (fun t => decide (t.stage = s)) = 0
    · simp [hc] at hs
    · omega
  · intro h s _
    have := h s
    simp only [Function.comp]
    rw [if_neg (by omega)]

/-- Claim C2: the guidance part of analyze follows exactly the specified
ordered decision chain, first matching condition winning. -/
theorem guidance_order_spec (thought : ThoughtData) (all_thoughts : List ThoughtData)
    (h1 : 1 ≤ thought.thought_number) (h2 : thought.thought_number ≤ thought.total_thoughts) :
    ((analyze_thought thought all_thoughts).recommendedNextThoughtNeeded,
      (analyze_thought thought all_thoughts).guidanceReason) =
      guidanceSpec thought all_thoughts := by
  simp only [analyze_thought, guidanceSpec]
  rw [Prod.mk.eta]
  refine if_congr Iff.rfl rfl (if_congr Iff.rfl rfl (if_congr ?_ rfl rfl))
  exact and_congr_left (fun _ => pending_empty_iff all_thoughts)

/-- Witness for `guidance_order_spec` at a concrete record and history. -/
theorem guidance_order_spec_witness :
    ((analyze_thought sampleScoping []).recommendedNextThoughtNeeded,
      (analyze_thought sampleScoping []).guidanceReason) = guidanceSpec sampleScoping [] :=
  guidance_order_spec sampleScoping [] (by decide) (by decide)

/-! ### Claim C5 — summary: stage keys, percent complete, empty placeholder -/

/-- Length of the entry stored under `key` in the stage-grouping dict. -/
def lookLenGrp (l : List (String × List ThoughtData)) (key : String) : Nat :=
  match l.find? (fun p => p.1 == key) with
  | some p => p.2.length
  | none => 0

theorem lookLenGrp_step (acc : List (String × List ThoughtData)) (t : ThoughtData)
    (key : String) :
    lookLenGrp
        (if acc.any (fun p => p.1 == t.stage.value) then
          acc.map (fun p => if p.1 == t.stage.value then (p.1, p.2 ++ [t]) else p)
        else acc ++ [(t.stage.value, [t])]) key =
      lookLenGrp acc key + (if t.stage.value == key then 1 else 0) := by
  by_cases hany : acc.any (fun p => p.1 == t.stage.value) = true
  · rw [if_pos hany]
    unfold lookLenGrp
    rw [List.find?_map]
    have hpred : ((fun p : String × List ThoughtData => p.1 == key) ∘
        (fun p : String × List ThoughtData =>
          if p.1 == t.stage.value then (p.1, p.2 ++ [t]) else p)) =
        (fun p : String × List ThoughtData => p.1 == key) := by
      funext p
      by_cases hp : (p.1 == t.stage.value) = true <;> simp [Function.comp, hp]
    rw [hpred]
    cases hacc : acc.find? (fun p => p.1 == key) with
    | none =>
      have hk : (t.stage.value == key) = false := by
        by_contra hkk
        rw [Bool.not_eq_false, beq_iff_eq] at hkk
        rcases List.any_eq_true.mp hany with ⟨p, hpmem, hp⟩
        rw [beq_iff_eq] at hp
        exact absurd (List.find?_eq_none.mp hacc p hpmem)
          (by simp [hp, hkk])
      simp [hk]
    | some q =>
      have hq : q.1 = key := by
        have h := List.find?_some hacc
        simpa using h
      by_cases hk : (t.stage.value == key) = true
      · rw [beq_iff_eq] at hk
        have hqt : (q.1 == t.stage.value) = true := by simp [hq, hk]
        simp [hqt, hk, hq]
      · rw [Bool.not_eq_true, beq_eq_false_iff_ne] at hk
        have hqt : (q.1 == t.stage.value) = false := by
          rw [beq_eq_false_iff_ne]
          rw [hq]
          exact fun he => hk he.symm
        have hcond : ¬(q.1 = t.stage.value) := by
          rw [hq]
          exact fun he => hk he.symm
        simp [hqt, beq_eq_false_iff_ne.mpr (fun he : t.stage.value = key => hk he), hcond]
  · rw [if_neg hany]
    unfold lookLenGrp
    rw [List.find?_append]
    by_cases hk : (t.stage.value == key) = true
    · have hnone : acc.find? (fun p => p.1 == key) = none := by
        rw [List.find?_eq_none]
        intro x hx hxk
        rw [beq_iff_eq] at hk hxk
        exact hany (List.any_eq_true.mpr ⟨x, hx, by simp [hxk, hk]⟩)
      rw [hnone]
      simp [List.find?, hk]
    · have hkf : (t.stage.value == key) = false := by
        rw [Bool.not_eq_true] at hk
        exact hk
      cases hacc : acc.find? (fun p => p.1 == key) with
      | none => simp [List.find?, hkf]
      | some q => simp [List.find?, hkf]

theorem groupByStage_fold (ts : List ThoughtData)
    (acc : List (String × List ThoughtData)) (key : String) :
    lookLenGrp
        (ts.foldl
          (fun stages t =>
            if stages.any (fun p => p.1 == t.stage.value) then
              stages.map (fun p => if p.1 == t.stage.value then (p.1, p.2 ++ [t]) else p)
            else stages ++ [(t.stage.value, [t])])
          acc) key =
      lookLenGrp acc key + ts.countP (fun t => t.stage.value == key) := by
  induction ts generalizing acc with
  | nil => simp
  | cons t ts ih =>
    rw [List.foldl_cons, ih, lookLenGrp_step, List.countP_cons]
    omega

theorem groupByStage_count (thoughts : List ThoughtData) (key : String) :
    lookLenGrp (groupByStageValue thoughts) key =
      thoughts.countP (fun t => t.stage.value == key) := by
  unfold groupByStageValue
  have h := groupByStage_fold thoughts [] key
  simpa [lookLenGrp] using h

theorem lookupD_stage_counts (stages : List (String × List ThoughtData)) (key : String) :
    lookupD (stages.map (fun p => (p.1, p.2.length))) key 0 = lookLenGrp stages key := by
  unfold lookupD lookLenGrp
  rw [List.find?_map]
  have hpred : ((fun p : String × Nat => p.1 == key) ∘
      (fun p : String × List ThoughtData => (p.1, p.2.length))) =
      (fun p : String × List ThoughtData => p.1 == key) := rfl
  rw [hpred]
  cases stages.find? (fun p => p.1 == key) <;> simp

theorem stage_value_inj : ∀ a b : ThoughtStage, a.value = b.value → a = b := by decide

theorem countP_stage_value (thoughts : List ThoughtData) (st : ThoughtStage) :
    thoughts.countP (fun t => t.stage.value == st.value) =
      thoughts.countP (fun t => decide (t.stage = st)) := by
  refine List.countP_congr ?_
  intro x _
  simp only [beq_iff_eq, decide_eq_true_iff]
  exact ⟨fun h => stage_value_inj _ _ h, fun h => by rw [h]⟩

theorem le_foldl_max (x : Int) (xs : List Int) : x ≤ xs.foldl max x := by
  induction xs generalizing x with
  | nil => exact le_refl x
  | cons y ys ih => exact le_trans (le_max_left x y) (ih (max x y))

theorem pyMaxD0_nonneg (l : List Int) (h : ∀ x ∈ l, 0 ≤ x) : 0 ≤ pyMaxD0 l := by
  cases l with
  | nil => exact le_refl 0
  | cons x xs => exact le_trans (h x (List.mem_cons_self x xs)) (le_foldl_max x xs)

/-- Claim C5: on a non-empty history the summary's per-stage map holds exactly
the five canonical stage keys (absent stages counted 0) and its
percent-complete is records divided by the maximum total-expected times 100
(0 when that maximum is 0); on the empty history the summary is the fixed
placeholder. -/
theorem summary_stages_percent (thoughts : List ThoughtData)
    (hval : ∀ t ∈ thoughts, 0 ≤ t.total_thoughts) :
    (thoughts = [] →
      generate_summary thoughts = .placeholder "No thoughts recorded yet") ∧
    (thoughts ≠ [] → ∃ s, generate_summary thoughts = .aggregate s ∧
      s.stages = canonicalStages.map (fun st =>
        (st.value, thoughts.countP (fun t => decide (t.stage = st)))) ∧
      s.percentComplete =
        (if pyMaxD0 (thoughts.map (·.total_thoughts)) = 0 then 0
         else (thoughts.length : ℚ) /
            ((pyMaxD0 (thoughts.map (·.total_thoughts)) : ℚ)) * 100)) := by
  constructor
  · intro h
    simp [generate_summary, h]
  · intro h
    refine ⟨_, by rw [generate_summary, if_neg h], ?_, ?_⟩
    · refine List.map_congr_left ?_
      intro st _
      rw [lookupD_stage_counts, groupByStage_count, countP_stage_value]
    · have hm : 0 ≤ pyMaxD0 (thoughts.map (·.total_thoughts)) :=
        pyMaxD0_nonneg _ (by
          intro x hx
          rcases List.mem_map.mp hx with ⟨t, ht, rfl⟩
          exact hval t ht)
      by_cases hz : pyMaxD0 (thoughts.map (·.total_thoughts)) = 0
      · rw [if_pos hz, if_neg (by omega)]
      · rw [if_neg hz, if_pos (by omega)]

/-- Witness for `summary_stages_percent` at a concrete history. -/
theorem summary_stages_percent_witness :
    (([sampleScoping] : List ThoughtData) = [] →
      generate_summary [sampleScoping] = .placeholder "No thoughts recorded yet") ∧
    (([sampleScoping] : List ThoughtData) ≠ [] →
      ∃ s, generate_summary [sampleScoping] = .aggregate s ∧
      s.stages = canonicalStages.map (fun st =>
        (st.value, [sampleScoping].countP (fun t => decide (t.stage = st)))) ∧
      s.percentComplete =
        (if pyMaxD0 ([sampleScoping].map (·.total_thoughts)) = 0 then 0
         else (([sampleScoping] : List ThoughtData).length : ℚ) /
            ((pyMaxD0 ([sampleScoping].map (·.total_thoughts)) : ℚ)) * 100)) :=
  summary_stages_percent [sampleScoping] (by
    intro t ht
    rw [List.mem_singleton] at ht
    subst ht
    decide)

/-! ### Claim C6 — export/import round trip -/

theorem from_string_value (st : ThoughtStage) :
    ThoughtStage.from_string st.value = .ok st := by
  cases st <;> rfl

theorem riskLevel_fromValue_value (r : RiskLevel) :
    RiskLevel.fromValue (pyLower r.value) = .ok r := by
  cases r <;> rfl

theorem from_dict_to_dict (t : ThoughtData) (h : ValidThought t)
    (freshId : Nat) (now : String) :
    ThoughtData.from_dict (ThoughtData.to_dict t) freshId now = .ok t := by
  obtain ⟨hne, hn1, hn2, hc0, hc1⟩ := h
  unfold ThoughtData.to_dict ThoughtData.from_dict
  simp only [from_string_value, riskLevel_fromValue_value, Option.getD_some]
  unfold mkThoughtData
  rw [if_neg (by
      rintro (he | he)
      · exact hne (by rw [he]; rfl)
      · exact hne he),
    if_neg (by omega), if_neg (by omega),
    if_neg (not_not_intro ⟨hc0, hc1⟩)]

theorem mapM_from_dict (l : List ThoughtData) (freshId : Nat) (now : String)
    (h : ∀ t ∈ l, ValidThought t) :
    (l.map ThoughtData.to_dict).mapM (fun d => ThoughtData.from_dict d freshId now) =
      .ok l := by
  induction l with
  | nil => rfl
  | cons t ts ih =>
    rw [List.map_cons, List.mapM_cons,
      from_dict_to_dict t (h t (List.mem_cons_self t ts)) freshId now,
      ih (fun x hx => h x (List.mem_cons_of_mem t hx))]
    rfl

/-- Claim C6: exporting a project history and importing the file into a fresh
project yields the same record sequence, in order (here even the identifiers
survive, which subsumes equality on all attributes except the identifier). -/
theorem session_roundtrip (history : List ThoughtData) (pid now now2 : String)
    (freshId : Nat) (h : ∀ t ∈ history, ValidThought t) :
    import_session (export_session history pid now) freshId now2 = .ok history := by
  simp only [import_session, export_session]
  exact mapM_from_dict history freshId now2 h

/-- Witness for `session_roundtrip` at a concrete one-record history. -/
theorem session_roundtrip_witness :
    import_session (export_session [sampleScoping] "default" "t0") 0 "t1" =
      .ok [sampleScoping] :=
  session_roundtrip [sampleScoping] "default" "t0" "t1" 0 (by
    intro t ht
    rw [List.mem_singleton] at ht
    subst ht
    exact ⟨by decide, by decide, by decide, zero_le_one, le_refl 1⟩)

/-! ### Claim C3 — relatedness search -/

/-- The relatedness score as the specification words it: +3 same stage, +1
per shared tag, +2 per shared file touched, +1 per shared dependency, +1 same
risk level, with sharing read as set intersection. -/
def relatedScoreSpec (current_thought thought : ThoughtData) : Nat :=
  (if thought.stage = current_thought.stage then 3 else 0) +
    (current_thought.tags.toFinset ∩ thought.tags.toFinset).card +
    2 * (current_thought.files_touched.toFinset ∩ thought.files_touched.toFinset).card +
    (current_thought.dependencies.toFinset ∩ thought.dependencies.toFinset).card +
    (if thought.risk_level = current_thought.risk_level then 1 else 0)

theorem listInterCard_eq (a b : List String) :
    listInterCard a b = (a.toFinset ∩ b.toFinset).card := by
  unfold listInterCard
  have h1 : (a.dedup.filter (fun x => decide (x ∈ b))).Nodup :=
    (List.nodup_dedup a).filter _
  rw [← List.toFinset_card_of_nodup h1]
  congr 1
  have hdt : a.dedup.toFinset = a.toFinset := by
    ext x
    simp [List.mem_dedup]
  rw [List.toFinset_filter, hdt, ← Finset.filter_mem_eq_inter]
  exact Finset.filter_congr (by intro x _; simp)

theorem relatednessScore_eq (current_thought thought : ThoughtData) :
    relatednessScore current_thought thought = relatedScoreSpec current_thought thought := by
  unfold relatednessScore relatedScoreSpec
  simp only [listInterCard_eq]
  by_cases h1 : thought.stage = current_thought.stage <;>
    by_cases h2 : thought.risk_level = current_thought.risk_level <;>
      simp [h1, h2] <;> ring

theorem mem_candidates {current_thought : ThoughtData} {all_thoughts : List ThoughtData}
    {p : Nat × ThoughtData}
    (hp : p ∈ all_thoughts.filterMap (fun thought =>
      if thought.id = current_thought.id then none
      else
        let score := relatednessScore current_thought thought
        if 0 < score then some (score, thought) else none)) :
    p.2 ∈ all_thoughts ∧ p.2.id ≠ current_thought.id ∧
      p.1 = relatednessScore current_thought p.2 ∧ 0 < p.1 := by
  rcases List.mem_filterMap.mp hp with ⟨a, ha, hfa⟩
  by_cases h1 : a.id = current_thought.id
  · rw [if_pos h1] at hfa
    cases hfa
  · rw [if_neg h1] at hfa
    dsimp only at hfa
    by_cases h2 : 0 < relatednessScore current_thought a
    · rw [if_pos h2] at hfa
      cases hfa
      exact ⟨ha, h1, rfl, h2⟩
    · rw [if_neg h2] at hfa
      cases hfa

theorem candidates_mem {current_thought : ThoughtData} {all_thoughts : List ThoughtData}
    {t : ThoughtData} (ht : t ∈ all_thoughts) (hid : t.id ≠ current_thought.id)
    (hs : 0 < relatednessScore current_thought t) :
    (relatednessScore current_thought t, t) ∈ all_thoughts.filterMap (fun thought =>
      if thought.id = current_thought.id then none
      else
        let score := relatednessScore current_thought thought
        if 0 < score then some (score, thought) else none) :=
  List.mem_filterMap.mpr ⟨t, ht, by
    rw [if_neg hid]
    dsimp only
    rw [if_pos hs]⟩

theorem candidates_length (current_thought : ThoughtData) (all_thoughts : List ThoughtData) :
    (all_thoughts.filterMap (fun thought =>
      if thought.id = current_thought.id then none
      else
        let score := relatednessScore current_thought thought
        if 0 < score then some (score, thought) else none)).length =
    (all_thoughts.filter (fun t => decide (t.id ≠ current_thought.id) &&
        decide (0 < relatedScoreSpec current_thought t))).length := by
  induction all_thoughts with
  | nil => rfl
  | cons t ts ih =>
    rw [List.filterMap_cons, List.filter_cons]
    by_cases h1 : t.id = current_thought.id
    · simp [h1, ih]
    · dsimp only
      by_cases h2 : 0 < relatednessScore current_thought t
      · have h2s : 0 < relatedScoreSpec current_thought t := by
          rw [← relatednessScore_eq]; exact h2
        simp [h1, h2, h2s, ih]
      · have h2s : ¬0 < relatedScoreSpec current_thought t := by
          rw [← relatednessScore_eq]; exact h2
        simp [h1, h2, h2s, ih]

/-- Claim C3: findRelated scores candidates per the spec formula, excludes
the target by identifier, drops zero scores, sorts by (score, sequence
number) descending, and returns at most maxResults; when all qualifying
candidates fit, each of them is returned. -/
theorem find_related_properties (current_thought : ThoughtData)
    (all_thoughts : List ThoughtData) (max_results : Nat) :
    (∀ t ∈ find_related_thoughts current_thought all_thoughts max_results,
        t.id ≠ current_thought.id) ∧
    (∀ t ∈ find_related_thoughts current_thought all_thoughts max_results,
        t ∈ all_thoughts ∧ 0 < relatedScoreSpec current_thought t) ∧
    (find_related_thoughts current_thought all_thoughts max_results).length ≤ max_results ∧
    (find_related_thoughts current_thought all_thoughts max_results).Pairwise
      (fun a b => relatedScoreSpec current_thought b < relatedScoreSpec current_thought a ∨
        (relatedScoreSpec current_thought a = relatedScoreSpec current_thought b ∧
          b.thought_number ≤ a.thought_number)) ∧
    ((all_thoughts.filter (fun t => decide (t.id ≠ current_thought.id) &&
        decide (0 < relatedScoreSpec current_thought t))).length ≤ max_results →
      ∀ t ∈ all_thoughts, t.id ≠ current_thought.id →
        0 < relatedScoreSpec current_thought t →
          t ∈ find_related_thoughts current_thought all_thoughts max_results) := by
  unfold find_related_thoughts
  set C := all_thoughts.filterMap (fun thought =>
    if thought.id = current_thought.id then none
    else
      let score := relatednessScore current_thought thought
      if 0 < score then some (score, thought) else none) with hC
  have hperm : (C.insertionSort pairGE).Perm C := List.perm_insertionSort pairGE C
  have hmem_take : ∀ p : Nat × ThoughtData,
      p ∈ (C.insertionSort pairGE).take max_results → p ∈ C := by
    intro p hp
    exact hperm.mem_iff.mp ((List.take_sublist _ _).subset hp)
  have hmem_res : ∀ t, t ∈ ((C.insertionSort pairGE).take max_results).map Prod.snd →
      ∃ p, p ∈ C ∧ p.2 = t := by
    intro t ht
    rcases List.mem_map.mp ht with ⟨p, hp, rfl⟩
    exact ⟨p, hmem_take p hp, rfl⟩
  refine ⟨?_, ?_, ?_, ?_, ?_⟩
  · intro t ht
    rcases hmem_res t ht with ⟨p, hp, rfl⟩
    exact (mem_candidates hp).2.1
  · intro t ht
    rcases hmem_res t ht with ⟨p, hp, rfl⟩
    rcases mem_candidates hp with ⟨h1, -, h3, h4⟩
    refine ⟨h1, ?_⟩
    rw [← relatednessScore_eq, ← h3]
    exact h4
  · rw [List.length_map, List.length_take]
    exact min_le_left _ _
  · have hsorted : (C.insertionSort pairGE).Pairwise pairGE :=
      List.sorted_insertionSort pairGE C
    have htake : ((C.insertionSort pairGE).take max_results).Pairwise pairGE :=
      hsorted.sublist (List.take_sublist _ _)
    rw [List.pairwise_map]
    refine htake.imp_of_mem ?_
    intro p q hp hq hpq
    rcases mem_candidates (hmem_take p hp) with ⟨-, -, hps, -⟩
    rcases mem_candidates (hmem_take q hq) with ⟨-, -, hqs, -⟩
    rcases hpq with h | ⟨h, hn⟩
    · left
      rw [← relatednessScore_eq, ← relatednessScore_eq, ← hps, ← hqs]
      exact h
    · right
      refine ⟨?_, hn⟩
      rw [← relatednessScore_eq, ← relatednessScore_eq, ← hps, ← hqs]
      exact h
  · intro hlen t ht hid hs
    have hCint : (relatednessScore current_thought t, t) ∈ C :=
      candidates_mem ht hid (by rw [relatednessScore_eq]; exact hs)
    have hClen : C.length ≤ max_results := by
      rw [hC, candidates_length]
      exact hlen
    have htake_all : (C.insertionSort pairGE).take max_results = C.insertionSort pairGE :=
      List.take_of_length_le (by rw [hperm.length_eq]; exact hClen)
    have hres : t ∈ ((C.insertionSort pairGE).take max_results).map Prod.snd := by
      rw [htake_all]
      exact List.mem_map_of_mem Prod.snd (hperm.mem_iff.mpr hCint)
    exact hres

/-- A Scoping-stage record used as relatedness target. -/
def sampleRelatedTarget : ThoughtData :=
  { thought := "Plan the scope", thought_number := 1, total_thoughts := 3,
    next_thought_needed := true, stage := .SCOPING, tags := [], ax_used := [],
    assumptions_challenged := [], files_touched := [], tests_to_run := [],
    risk_level := .MEDIUM, dependencies := [], confidence_score := 1,
    timestamp := "2025-01-01T00:00:03", id := 10 }

/-- A second Scoping-stage record, related to the target by stage and risk. -/
def sampleRelatedCand : ThoughtData :=
  { thought := "Refine the scope", thought_number := 2, total_thoughts := 3,
    next_thought_needed := true, stage := .SCOPING, tags := [], ax_used := [],
    assumptions_challenged := [], files_touched := [], tests_to_run := [],
    risk_level := .MEDIUM, dependencies := [], confidence_score := 1,
    timestamp := "2025-01-01T00:00:04", id := 11 }

/-- Witness for `find_related_properties`: the same-stage same-risk candidate
is returned. -/
theorem find_related_properties_witness :
    sampleRelatedCand ∈ find_related_thoughts sampleRelatedTarget [sampleRelatedCand] 3 :=
  (find_related_properties sampleRelatedTarget [sampleRelatedCand] 3).2.2.2.2
    (by decide) sampleRelatedCand (List.mem_singleton_self _) (by decide) (by decide)
